import Mathlib

/-!
Verification of the JSON node-inspector / node-editor dialogs
(`src/features/modals/EditNodeModal/index.tsx` and the NodeModal
component): the path-based JSON mutation routine `updateJsonAtPath`, the
scalar coercion pair `parseValue` / `valueToString`, the key validation in
`handleSave`, and the NodeModal helpers `normalizeNodeData`,
`jsonPathToString`, `isEditableNode`.

JSON values are embedded as an inductive tree; JavaScript objects are
ordered association lists (unique keys on every value produced by
`JSON.parse`; all operations use first-occurrence semantics, which agrees
with JavaScript on such values).  JSON numbers are embedded as exact
decimals `mant * 10 ^ exp`: every number in the spec's scenarios and
claims is exactly representable, and no claim depends on float-specific
rounding, infinities, or the 2^53 precision bound.
-/

/-- A number as an exact decimal `mant * 10 ^ exp`.  All values are built
through `JNum.make`, which keeps the representation canonical (mantissa
not divisible by ten, zero is `⟨0, 0⟩`), so that structural equality
coincides with numeric equality. -/
structure JNum where
  mant : Int
  exp : Int
deriving DecidableEq, Repr

/-- Strip factors of ten from the mantissa into the exponent.  The fuel
bounds the number of strippable zeros; 128 covers every value any
scenario constructs. -/
def stripTens : Nat → Int → Int → Int × Int
  | 0, m, e => (m, e)
  | fuel + 1, m, e =>
    if m % 10 = 0 && m != 0 then stripTens fuel (m / 10) (e + 1) else (m, e)

/-- Canonical constructor for `JNum`. -/
def JNum.make (m : Int) (e : Int) : JNum :=
  if m = 0 then ⟨0, 0⟩ else ⟨(stripTens 128 m e).1, (stripTens 128 m e).2⟩

/-- Negation (canonical-form preserving). -/
def JNum.neg (n : JNum) : JNum := ⟨-n.mant, n.exp⟩

/-- An integral non-negative number as an array index; `none` otherwise. -/
def JNum.toIndex (n : JNum) : Option Nat :=
  if 0 ≤ n.mant && 0 ≤ n.exp then some (n.mant.toNat * 10 ^ n.exp.toNat) else none

/-- Result of a JavaScript numeric conversion that did not produce NaN:
a finite decimal or one of the two infinities (`Number("Infinity")` and
friends).  NaN itself is `none` in the `Option NumVal` the conversions
return. -/
inductive NumVal where
  | finite (n : JNum)
  | inf (neg : Bool)
deriving DecidableEq, Repr

/-- Negation of a conversion result (for a leading minus sign). -/
def NumVal.negate : NumVal → NumVal
  | .finite n => .finite n.neg
  | .inf b => .inf !b

/-- A path segment, as produced by the graph view: a mapping key (string)
or a sequence index (number).  `handleSave` casts the path to `string[]`
but the runtime values keep their original types. -/
inductive Seg where
  | str (s : String)
  | idx (n : Nat)
deriving DecidableEq, Repr

/-- The standard recursive JSON value, extended with the two JavaScript
infinities: `JSON.parse` never produces them, but the editor can write
`Number("Infinity")` into the tree through the mutation, and
`JSON.stringify` then renders them as `null`. -/
inductive JValue where
  | null
  | bool (b : Bool)
  | num (n : JNum)
  | inf (neg : Bool)
  | str (s : String)
  | arr (elems : List JValue)
  | obj (entries : List (String × JValue))

/-- Shorthand for an integer JSON number. -/
def jnum (m : Int) : JValue := JValue.num (JNum.make m 0)

/-- First-occurrence association-list lookup, the embedding of reading a
property `o[k]` of a JavaScript object (`undefined` is `none`). -/
def jsObjGet : List (String × JValue) → String → Option JValue
  | [], _ => none
  | (k₀, v₀) :: rest, k => if k₀ = k then some v₀ else jsObjGet rest k

/-- The embedding of a JavaScript property write `o[k] = v`: overwrite in
place when the key is present, append otherwise. -/
def jsObjSet : List (String × JValue) → String → JValue → List (String × JValue)
  | [], k, v => [(k, v)]
  | (k₀, v₀) :: rest, k, v =>
    if k₀ = k then (k₀, v) :: rest else (k₀, v₀) :: jsObjSet rest k v

/-- The embedding of `delete o[k]`. -/
def removeFirst : List (String × JValue) → String → List (String × JValue)
  | [], _ => []
  | (k₀, v₀) :: rest, k => if k₀ = k then rest else (k₀, v₀) :: removeFirst rest k

/-- Element read `a[n]` of a JavaScript array (`undefined` is `none`). -/
def arrGet : List JValue → Nat → Option JValue
  | [], _ => none
  | x :: _, 0 => some x
  | _ :: xs, n + 1 => arrGet xs n

/-- In-bounds element replacement (no effect out of bounds). -/
def arrSet : List JValue → Nat → JValue → List JValue
  | [], _, _ => []
  | _ :: xs, 0, v => v :: xs
  | x :: xs, n + 1, v => x :: arrSet xs n v

/-- Removal of the element at an index (no effect out of bounds). -/
def arrErase : List JValue → Nat → List JValue
  | [], _ => []
  | _ :: xs, 0 => xs
  | x :: xs, n + 1 => x :: arrErase xs n

/-- The embedding of a JavaScript element write `a[n] = v`: in bounds it
replaces the element; out of bounds but below the ECMAScript array-index
limit `2 ^ 32 - 1` it extends the array to length `n + 1` (JavaScript
leaves holes in the gap; holes serialize as `null` under
`JSON.stringify`, and the mutated document is observed only through its
serialization, so the gap is padded with `null`).  At or beyond the
limit the write creates a non-index property, which `JSON.stringify`
ignores, so the serialized array is unchanged. -/
def jsArrSet (xs : List JValue) (n : Nat) (v : JValue) : List JValue :=
  if n < xs.length then arrSet xs n v
  else if n < 4294967295 then xs ++ List.replicate (n - xs.length) JValue.null ++ [v]
  else xs

/-- Characters treated as whitespace by JavaScript `String.prototype.trim`
and by `Number(string)`: the ECMAScript WhiteSpace set (tab, vertical
tab, form feed, space, no-break space, zero-width no-break space and the
Unicode Zs category) together with the LineTerminator set (line feed,
carriage return, line separator, paragraph separator). -/
def jsWhitespace (c : Char) : Bool :=
  c = ' ' || c = '\t' || c = '\n' || c = '\r' || c = '\x0b' || c = '\x0c' ||
  c = '\xa0' || c = '\u1680' || ('\u2000' ≤ c && c ≤ '\u200a') ||
  c = '\u2028' || c = '\u2029' || c = '\u202f' || c = '\u205f' || c = '\u3000' ||
  c = '\ufeff'

/-- Model of JavaScript `String.prototype.trim`. -/
def jsTrim (s : String) : String :=
  ⟨((s.data.dropWhile jsWhitespace).reverse.dropWhile jsWhitespace).reverse⟩

/-- Value of a list of decimal digit characters. -/
def digitsToNat (cs : List Char) : Nat :=
  cs.foldl (fun acc c => acc * 10 + (c.toNat - 48)) 0

/-- Exponent suffix of a JavaScript decimal numeric literal: empty means
exponent `0`; otherwise `e`/`E`, an optional sign and at least one digit,
consuming the whole remainder. -/
def parseExpPart : List Char → Option Int
  | [] => some 0
  | c :: rest =>
    if c = 'e' || c = 'E' then
      match rest with
      | '+' :: ds =>
        if !ds.isEmpty && ds.all Char.isDigit then some (digitsToNat ds) else none
      | '-' :: ds =>
        if !ds.isEmpty && ds.all Char.isDigit then some (-(digitsToNat ds : Int)) else none
      | ds =>
        if !ds.isEmpty && ds.all Char.isDigit then some (digitsToNat ds) else none
    else none

/-- The decimal `ip . fp × 10 ^ e` as a canonical `JNum`. -/
def decToNum (ip fp : List Char) (e : Int) : JNum :=
  JNum.make (digitsToNat (ip ++ fp)) (e - fp.length)

/-- Unsigned part of a `StrNumericLiteral`: the keyword `Infinity`, or
digits with optional fraction and optional exponent (`1`, `1.5`, `.5`,
`1.`, `1e-2`, ...). -/
def parseUnsignedDec (cs : List Char) : Option NumVal :=
  if cs = ['I', 'n', 'f', 'i', 'n', 'i', 't', 'y'] then some (.inf false)
  else
    let ip := cs.takeWhile Char.isDigit
    let rest := cs.dropWhile Char.isDigit
    match rest with
    | '.' :: rest2 =>
      let fp := rest2.takeWhile Char.isDigit
      let rest3 := rest2.dropWhile Char.isDigit
      if ip.isEmpty && fp.isEmpty then none
      else (parseExpPart rest3).map (fun e => NumVal.finite (decToNum ip fp e))
    | _ =>
      if ip.isEmpty then none
      else (parseExpPart rest).map (fun e => NumVal.finite (decToNum ip [] e))

/-- Optionally signed decimal literal. -/
def parseSignedDec : List Char → Option NumVal
  | '+' :: rest => parseUnsignedDec rest
  | '-' :: rest => (parseUnsignedDec rest).map NumVal.negate
  | cs => parseUnsignedDec cs

/-- One digit in the given radix. -/
def radixDigit (radix : Nat) (c : Char) : Option Nat :=
  let v :=
    if c.isDigit then some (c.toNat - 48)
    else if 'a' ≤ c && c ≤ 'f' then some (c.toNat - 87)
    else if 'A' ≤ c && c ≤ 'F' then some (c.toNat - 55)
    else none
  match v with
  | some d => if d < radix then some d else none
  | none => none

/-- Non-empty digit string in the given radix, as a finite integer. -/
def parseRadix (radix : Nat) (cs : List Char) : Option NumVal :=
  if cs.isEmpty then none
  else
    (cs.foldl
      (fun acc c =>
        match acc, radixDigit radix c with
        | some a, some d => some (a * radix + d)
        | _, _ => none)
      (some 0)).map (fun n => NumVal.finite (JNum.make n 0))

/-- Model of the JavaScript `Number(string)` conversion used by
`parseValue` and by array-index coercion: surrounding whitespace (the
full ECMAScript set) is ignored, the empty string converts to `0`, and
the literal may be a signed decimal (with fraction and exponent), a
signed `Infinity`, or an unsigned `0x`/`0o`/`0b` prefixed integer.
`none` models NaN. -/
def jsStringToNumber (s : String) : Option NumVal :=
  match (jsTrim s).data with
  | [] => some (.finite (JNum.make 0 0))
  | '0' :: c :: rest =>
    if c = 'x' || c = 'X' then parseRadix 16 rest
    else if c = 'o' || c = 'O' then parseRadix 8 rest
    else if c = 'b' || c = 'B' then parseRadix 2 rest
    else parseSignedDec ('0' :: c :: rest)
  | cs => parseSignedDec cs

/-- Model of the JavaScript number-to-string conversion on the exact
decimals of this development: integers render bare, fractional values as
plain decimals with no trailing zeros (the shortest-roundtrip behaviour
of JavaScript on such values; the exponential notation JavaScript uses
beyond `1e21` or below `1e-7` occurs in no claim). -/
def numToString (n : JNum) : String :=
  if 0 ≤ n.exp then toString (n.mant * (10 : Int) ^ n.exp.toNat)
  else
    let k := (-n.exp).toNat
    let sign := if n.mant < 0 then "-" else ""
    let ds := (toString n.mant.natAbs).data
    let padded := if ds.length < k + 1 then List.replicate (k + 1 - ds.length) '0' ++ ds else ds
    sign ++ (⟨padded.take (padded.length - k)⟩ : String) ++ "." ++
      (⟨padded.drop (padded.length - k)⟩ : String)

/-- A primitive JSON value as held in a node snapshot row or in the edit
form state (`string | number | boolean | null`). -/
inductive JPrim where
  | null
  | bool (b : Bool)
  | num (n : JNum)
  | inf (neg : Bool)
  | str (s : String)
deriving DecidableEq, Repr

/-- Model of the JavaScript `String(value)` conversion on primitives. -/
def jsString : JPrim → String
  | .null => "null"
  | .bool b => if b then "true" else "false"
  | .num n => numToString n
  | .inf neg => if neg then "-Infinity" else "Infinity"
  | .str s => s

/-- Model of the JavaScript `Number(value)` conversion on primitives
(`none` models NaN). -/
def jsToNumber : JPrim → Option NumVal
  | .null => some (.finite (JNum.make 0 0))
  | .bool b => some (.finite (JNum.make (if b then 1 else 0) 0))
  | .num n => some (.finite n)
  | .inf neg => some (.inf neg)
  | .str s => jsStringToNumber s

/-- Embedding of `parseValue` (EditNodeModal lines 32-40): coerce the raw
form value to the selected target type; a NaN numeric parse falls back
to `0`. -/
def parseValue (value : JPrim) (type : String) : JValue :=
  if type = "null" then JValue.null
  else if type = "boolean" then
    JValue.bool (value == JPrim.str "true" || value == JPrim.bool true)
  else if type = "number" then
    match jsToNumber value with
    | some (.finite n) => JValue.num n
    | some (.inf neg) => JValue.inf neg
    | none => JValue.num (JNum.make 0 0)
  else JValue.str (jsString value)

/-- Embedding of `valueToString` (EditNodeModal lines 42-46): display
string for an editable text field (`String(value)` after the null and
boolean special cases). -/
def valueToString : JPrim → String
  | .null => ""
  | .bool b => if b then "true" else "false"
  | .num n => jsString (.num n)
  | .inf neg => jsString (.inf neg)
  | .str s => jsString (.str s)

/-- JavaScript property-name coercion of a path segment (`o[seg]`). -/
def segKey : Seg → String
  | .str s => s
  | .idx n => toString n

/-- JavaScript `Number(segment)` coerced to an array index: the access
`a[Number(seg)]` touches an element only when the conversion yields a
non-negative integer; any other result names a non-index property, which
is invisible to `JSON.stringify`. -/
def segNum : Seg → Option Nat
  | .idx n => some n
  | .str s =>
    match jsStringToNumber s with
    | some (.finite q) => q.toIndex
    | some (.inf _) => none
    | none => none

/-- Terminal step of `updateJsonAtPath` (EditNodeModal lines 88-103).
On a sequence the last segment is coerced with `Number(...)` and the
element written (an out-of-bounds or fresh integer index auto-extends the
array; a non-index result names a property invisible to serialization, so
the document is unchanged).  On a mapping, a provided `newKey` that is
truthy and differs from the last segment deletes the old member and
writes the new key; otherwise the member is written in place.  Writing a
property on a primitive throws a `TypeError` in strict mode; every walk
that leaves array/object territory ends in such a throw, surfaced here at
the departing step. -/
def applyTerminal (v : JValue) (last : Seg) (nv : JValue) (nk : Option String) :
    Except String JValue :=
  match v with
  | .arr xs =>
    match segNum last with
    | some n => .ok (.arr (jsArrSet xs n nv))
    | none => .ok (.arr xs)
  | .obj kvs =>
    match nk with
    | some k =>
      if k ≠ "" && k ≠ segKey last then
        .ok (.obj (jsObjSet (removeFirst kvs (segKey last)) k nv))
      else .ok (.obj (jsObjSet kvs (segKey last) nv))
    | none => .ok (.obj (jsObjSet kvs (segKey last) nv))
  | _ => .error "TypeError: cannot create a property on a primitive value"

/-- Embedding of `updateJsonAtPath` (EditNodeModal lines 75-104): walk to
the parent of the target along all but the last segment, then apply the
terminal write.  The JavaScript routine mutates a freshly parsed tree in
place; trees from `JSON.parse` are unaliased, so the functional rebuild
below is observationally the same.  A walk that reaches `undefined`, a
primitive, or a missing member throws in strict mode when it is next
dereferenced or written through; those throws surface as `.error` at the
step that leaves array/object territory.  The empty path is a
precondition violation per the spec (the caller always passes at least
one segment) and returns the root unchanged. -/
def updateJsonAtPath (v : JValue) (path : List Seg) (nv : JValue) (nk : Option String) :
    Except String JValue :=
  match path with
  | [] => .ok v
  | [last] => applyTerminal v last nv nk
  | seg :: rest =>
    match v with
    | .arr xs =>
      match segNum seg with
      | some n =>
        match arrGet xs n with
        | some child =>
          (updateJsonAtPath child rest nv nk).map (fun c => .arr (arrSet xs n c))
        | none => .error "TypeError: cannot read properties of undefined"
      | none => .error "TypeError: cannot read properties of undefined"
    | .obj kvs =>
      match jsObjGet kvs (segKey seg) with
      | some child =>
        (updateJsonAtPath child rest nv nk).map (fun c => .obj (jsObjSet kvs (segKey seg) c))
      | none => .error "TypeError: cannot read properties of undefined"
    | _ => .error "TypeError: cannot read properties of a primitive value"

/-- Resolution of a path against a value, following exactly the walk of
`updateJsonAtPath`: sequence steps go through the `Number(...)` index
coercion, mapping steps through property-name coercion. -/
def getAtPath : JValue → List Seg → Option JValue
  | v, [] => some v
  | .arr xs, seg :: rest =>
    match segNum seg with
    | some n =>
      match arrGet xs n with
      | some c => getAtPath c rest
      | none => none
    | none => none
  | .obj kvs, seg :: rest =>
    match jsObjGet kvs (segKey seg) with
    | some c => getAtPath c rest
    | none => none
  | _, _ :: _ => none

/-- Replacement of the whole subtree at a resolvable path (specification
device: `mutate` localized to the parent it walks to). -/
def setAtPath : JValue → List Seg → JValue → JValue
  | _, [], x => x
  | .arr xs, seg :: rest, x =>
    match segNum seg with
    | some n =>
      match arrGet xs n with
      | some c => .arr (arrSet xs n (setAtPath c rest x))
      | none => .arr xs
    | none => .arr xs
  | .obj kvs, seg :: rest, x =>
    match jsObjGet kvs (segKey seg) with
    | some c => .obj (jsObjSet kvs (segKey seg) (setAtPath c rest x))
    | none => .obj kvs
  | v, _ :: _, _ => v

/-- The document with the element addressed by the path removed — the
spec's `withoutPath`, used to state that a mutation changes nothing
besides the addressed element: siblings keep their presence and order and
every ancestor keeps its array-vs-object shape. -/
def withoutPath : JValue → List Seg → JValue
  | v, [] => v
  | .arr xs, [last] =>
    match segNum last with
    | some n => .arr (arrErase xs n)
    | none => .arr xs
  | .obj kvs, [last] => .obj (removeFirst kvs (segKey last))
  | .arr xs, seg :: rest =>
    match segNum seg with
    | some n =>
      match arrGet xs n with
      | some c => .arr (arrSet xs n (withoutPath c rest))
      | none => .arr xs
    | none => .arr xs
  | .obj kvs, seg :: rest =>
    match jsObjGet kvs (segKey seg) with
    | some c => .obj (jsObjSet kvs (segKey seg) (withoutPath c rest))
    | none => .obj kvs
  | v, _ :: _ => v

/-- A primitive (non-container) JSON value. -/
def isScalar : JValue → Bool
  | .arr _ => false
  | .obj _ => false
  | _ => true

/-- Hexadecimal digit character (lowercase, as printed by
`JSON.stringify` in `\u00XX` escapes). -/
def hexDigitChar (n : Nat) : Char :=
  if n < 10 then Char.ofNat (48 + n) else Char.ofNat (87 + (n - 10))

/-- `JSON.stringify` escaping of one string character. -/
def escapeJsonChar (c : Char) : List Char :=
  if c = '"' then ['\\', '"']
  else if c = '\\' then ['\\', '\\']
  else if c = '\x08' then ['\\', 'b']
  else if c = '\t' then ['\\', 't']
  else if c = '\n' then ['\\', 'n']
  else if c = '\x0c' then ['\\', 'f']
  else if c = '\r' then ['\\', 'r']
  else if c.toNat < 32 then
    ['\\', 'u', '0', '0', hexDigitChar (c.toNat / 16), hexDigitChar (c.toNat % 16)]
  else [c]

/-- A string as a JSON string literal, quotes included. -/
def quoteJson (s : String) : String :=
  ⟨'"' :: ((s.data.map escapeJsonChar).flatten ++ ['"'])⟩

/-- `depth` levels of two-space indentation. -/
def stringifyIndent (depth : Nat) : String :=
  ⟨List.replicate (depth * 2) ' '⟩

/-- Model of `JSON.stringify(v, null, 2)` at a given depth: scalars
inline, empty containers as `[]` / `\x7b\x7d`, non-empty containers with
each child on its own line, two more spaces of indentation per level.
The fuel only serves termination; `jsonStringify2` passes `2 ^ 20`,
while JavaScript engines overflow the call stack at a nesting depth
orders of magnitude below that, so the `""` branch models no reachable
behaviour. -/
def stringifyAux : Nat → Nat → JValue → String
  | 0, _, _ => ""
  | fuel + 1, depth, v =>
    match v with
    | .null => "null"
    | .bool b => if b then "true" else "false"
    | .num n => numToString n
    | .inf _ => "null"
    | .str s => quoteJson s
    | .arr [] => "[]"
    | .arr xs =>
      "[\n" ++
        String.intercalate ",\n"
          (xs.map fun c => stringifyIndent (depth + 1) ++ stringifyAux fuel (depth + 1) c) ++
        "\n" ++ stringifyIndent depth ++ "]"
    | .obj [] => "\x7b\x7d"
    | .obj kvs =>
      "\x7b\n" ++
        String.intercalate ",\n"
          (kvs.map fun e =>
            stringifyIndent (depth + 1) ++ quoteJson e.1 ++ ": " ++
              stringifyAux fuel (depth + 1) e.2) ++
        "\n" ++ stringifyIndent depth ++ "\x7d"

/-- Model of the `JSON.stringify(value, null, 2)` call in `handleSave`
(line 147). -/
def jsonStringify2 (v : JValue) : String :=
  stringifyAux 1048576 0 v

/-- JSON whitespace (space, tab, line feed, carriage return). -/
def skipWs : List Char → List Char
  | [] => []
  | c :: cs => if c = ' ' || c = '\t' || c = '\n' || c = '\r' then skipWs cs else c :: cs

/-- Four hexadecimal digits of a `\uXXXX` escape. -/
def parseHex4 : List Char → Option (Nat × List Char)
  | a :: b :: c :: d :: rest =>
    match radixDigit 16 a, radixDigit 16 b, radixDigit 16 c, radixDigit 16 d with
    | some x, some y, some z, some w => some (((x * 16 + y) * 16 + z) * 16 + w, rest)
    | _, _, _, _ => none
  | _ => none

/-- Body of a JSON string literal after the opening quote, with escapes;
the fuel bounds the number of consumed characters. -/
def parseJStringAux : Nat → List Char → List Char → Option (String × List Char)
  | 0, _, _ => none
  | fuel + 1, acc, cs =>
    match cs with
    | [] => none
    | '"' :: rest => some (⟨acc.reverse⟩, rest)
    | '\\' :: e :: rest =>
      if e = '"' then parseJStringAux fuel ('"' :: acc) rest
      else if e = '\\' then parseJStringAux fuel ('\\' :: acc) rest
      else if e = '/' then parseJStringAux fuel ('/' :: acc) rest
      else if e = 'b' then parseJStringAux fuel ('\x08' :: acc) rest
      else if e = 'f' then parseJStringAux fuel ('\x0c' :: acc) rest
      else if e = 'n' then parseJStringAux fuel ('\n' :: acc) rest
      else if e = 'r' then parseJStringAux fuel ('\r' :: acc) rest
      else if e = 't' then parseJStringAux fuel ('\t' :: acc) rest
      else if e = 'u' then
        match parseHex4 rest with
        | some (n, rest2) => parseJStringAux fuel (Char.ofNat n :: acc) rest2
        | none => none
      else none
    | c :: rest => if c.toNat < 32 then none else parseJStringAux fuel (c :: acc) rest

/-- Fraction part of a JSON number: empty, or a dot with at least one
digit. -/
def parseFracPart : List Char → Option (List Char × List Char)
  | '.' :: r =>
    let f := r.takeWhile Char.isDigit
    if f.isEmpty then none else some (f, r.dropWhile Char.isDigit)
  | cs => some ([], cs)

/-- Exponent part of a JSON number: empty, or `e`/`E`, optional sign and
at least one digit. -/
def parseJsonExpPart : List Char → Option (Int × List Char)
  | [] => some (0, [])
  | c :: rest =>
    if c = 'e' || c = 'E' then
      match rest with
      | '+' :: ds =>
        let d := ds.takeWhile Char.isDigit
        if d.isEmpty then none else some ((digitsToNat d : Int), ds.dropWhile Char.isDigit)
      | '-' :: ds =>
        let d := ds.takeWhile Char.isDigit
        if d.isEmpty then none else some (-(digitsToNat d : Int), ds.dropWhile Char.isDigit)
      | ds =>
        let d := ds.takeWhile Char.isDigit
        if d.isEmpty then none else some ((digitsToNat d : Int), ds.dropWhile Char.isDigit)
    else some (0, c :: rest)

/-- A JSON number literal (strict JSON grammar: optional minus,
`0`-or-no-leading-zero integer part, optional fraction, optional
exponent). -/
def parseJsonNumber (cs : List Char) : Option (JNum × List Char) :=
  let sp := match cs with
    | '-' :: r => ((true : Bool), r)
    | _ => ((false : Bool), cs)
  let ip := sp.2.takeWhile Char.isDigit
  let r1 := sp.2.dropWhile Char.isDigit
  if ip.isEmpty then none
  else if ip.length > 1 && ip.head? = some '0' then none
  else
    match parseFracPart r1 with
    | none => none
    | some (fp, r2) =>
      match parseJsonExpPart r2 with
      | none => none
      | some (e, r3) =>
        let n := decToNum ip fp e
        some (if sp.1 then JNum.neg n else n, r3)

/-- A literal keyword tail (`ull`, `rue`, `alse`). -/
def expectLit : List Char → List Char → Option (List Char)
  | [], cs => some cs
  | l :: ls, c :: cs => if l = c then expectLit ls cs else none
  | _ :: _, [] => none

mutual

/-- One JSON value (recursive-descent on explicit fuel; the fuel in
`jsonParse` is ample for every input). -/
def parseJ : Nat → List Char → Except String (JValue × List Char)
  | 0, _ => .error "JSON depth limit exceeded"
  | fuel + 1, cs =>
    match skipWs cs with
    | [] => .error "Unexpected end of JSON input"
    | c :: rest =>
      if c = 'n' then
        match expectLit ['u', 'l', 'l'] rest with
        | some r => .ok (.null, r)
        | none => .error "Unexpected token in JSON"
      else if c = 't' then
        match expectLit ['r', 'u', 'e'] rest with
        | some r => .ok (.bool true, r)
        | none => .error "Unexpected token in JSON"
      else if c = 'f' then
        match expectLit ['a', 'l', 's', 'e'] rest with
        | some r => .ok (.bool false, r)
        | none => .error "Unexpected token in JSON"
      else if c = '"' then
        match parseJStringAux (rest.length + 1) [] rest with
        | some (s, r) => .ok (.str s, r)
        | none => .error "Invalid string in JSON"
      else if c = '[' then parseJItems fuel rest []
      else if c = '\x7b' then parseJMembers fuel rest []
      else
        match parseJsonNumber (c :: rest) with
        | some (n, r) => .ok (.num n, r)
        | none => .error "Unexpected token in JSON"

/-- Elements of a JSON array after `[` or after a comma. -/
def parseJItems : Nat → List Char → List JValue → Except String (JValue × List Char)
  | 0, _, _ => .error "JSON depth limit exceeded"
  | fuel + 1, cs, acc =>
    match skipWs cs with
    | ']' :: rest =>
      if acc.isEmpty then .ok (.arr [], rest) else .error "Unexpected token ] in JSON"
    | cs2 =>
      match parseJ fuel cs2 with
      | .error e => .error e
      | .ok (v, r) =>
        match skipWs r with
        | ',' :: r2 => parseJItems fuel r2 (v :: acc)
        | ']' :: r2 => .ok (.arr (v :: acc).reverse, r2)
        | _ => .error "Expected comma or closing bracket in JSON array"

/-- Members of a JSON object after `\x7b` or after a comma; duplicate
keys overwrite in place, as in JavaScript. -/
def parseJMembers : Nat → List Char → List (String × JValue) →
    Except String (JValue × List Char)
  | 0, _, _ => .error "JSON depth limit exceeded"
  | fuel + 1, cs, acc =>
    match skipWs cs with
    | '\x7d' :: rest =>
      if acc.isEmpty then .ok (.obj [], rest) else .error "Unexpected token in JSON object"
    | '"' :: rest =>
      match parseJStringAux (rest.length + 1) [] rest with
      | none => .error "Invalid string in JSON"
      | some (k, r) =>
        match skipWs r with
        | ':' :: r2 =>
          match parseJ fuel r2 with
          | .error e => .error e
          | .ok (v, r3) =>
            match skipWs r3 with
            | ',' :: r4 => parseJMembers fuel r4 (jsObjSet acc k v)
            | '\x7d' :: r4 => .ok (.obj (jsObjSet acc k v), r4)
            | _ => .error "Expected comma or closing brace in JSON object"
        | _ => .error "Expected colon in JSON object"
    | _ => .error "Expected string key in JSON object"

end

/-- Model of the `JSON.parse(json)` builtin call in `handleSave`
(line 128): parse one JSON value, then require only whitespace to
follow.  A thrown `SyntaxError` is `.error` (the exact message text is
the model's own). -/
def jsonParse (s : String) : Except String JValue :=
  match parseJ (2 * s.length + 8) s.data with
  | .error e => .error e
  | .ok (v, rest) =>
    match skipWs rest with
    | [] => .ok v
    | _ => .error "Unexpected non-whitespace character after JSON data"

/-- First character of the identifier pattern
`^[a-zA-Z_$][a-zA-Z0-9_$]*$` (EditNodeModal line 122). -/
def isIdentStart (c : Char) : Bool :=
  c.isAlpha || c = '_' || c = '$'

/-- Subsequent character of the identifier pattern. -/
def isIdentRest (c : Char) : Bool :=
  c.isAlpha || c.isDigit || c = '_' || c = '$'

/-- The `^[a-zA-Z_$][a-zA-Z0-9_$]*$` test of `handleSave`. -/
def isValidIdent (s : String) : Bool :=
  match s.data with
  | [] => false
  | c :: cs => isIdentStart c && cs.all isIdentRest

/-- The key-validation block of `handleSave` (EditNodeModal lines
117-126), returning the error message it surfaces, if any.  A `null` or
empty key is falsy in JavaScript, so the whole block is skipped for it. -/
def validateKey : Option String → Option String
  | none => none
  | some k =>
    if k = "" then none
    else if jsTrim k = "" then some "Key cannot be empty"
    else if isValidIdent k then none
    else some "Key must be a valid identifier"

/-- One row of a node snapshot (`NodeData["text"]`): key (string or
null), primitive value, and type tag (`"string" | "number" | "boolean" |
"null" | "object" | "array"`). -/
structure Row where
  key : Option String
  value : JPrim
  type : String
deriving DecidableEq, Repr

/-- A node snapshot as consumed by the dialogs: the row list and the
JSON path of the element's container.  Either field may be absent at
runtime (the code guards both), hence the `Option`s. -/
structure NodeData where
  path : Option (List Seg)
  text : Option (List Row)
deriving DecidableEq, Repr

/-- The edit form state (`EditNodeModalState`). -/
structure EditState where
  key : Option String
  value : JPrim
  type : String
deriving DecidableEq, Repr

/-- Truthiness of a JavaScript `string | null` value. -/
def truthyKey : Option String → Bool
  | none => false
  | some s => s ≠ ""

/-- Embedding of `isEditableNode` (NodeModal lines 31-36): a node is
editable iff a snapshot is present, has at least one row, and the first
row's type is neither `"object"` nor `"array"`. -/
def isEditableNode : Option NodeData → Bool
  | none => false
  | some nd =>
    match nd.text with
    | none => false
    | some [] => false
    | some (textRow :: _) => textRow.type ≠ "object" && textRow.type ≠ "array"

/-- The arrow function inside `jsonPathToString`
(`typeof seg === "number" ? seg : "${seg}"` quoted): a numeric segment
joins bare, a string segment joins wrapped in double quotes. -/
def segDisplay : Seg → String
  | .idx n => toString n
  | .str s => "\"" ++ s ++ "\""

/-- Embedding of `jsonPathToString` (NodeModal lines 24-29): `"$"` for a
missing or empty path, otherwise `$[s0][s1]...` with the segments
rendered by `segDisplay` and joined with `][`. -/
def jsonPathToString : Option (List Seg) → String
  | none => "$"
  | some path =>
    if path.isEmpty then "$"
    else "$[" ++ String.intercalate "][" (path.map segDisplay) ++ "]"

/-- A primitive as a `JValue` (the identity embedding of a row value
into the document tree). -/
def primToJValue : JPrim → JValue
  | .null => .null
  | .bool b => .bool b
  | .num n => .num n
  | .inf neg => .inf neg
  | .str s => .str s

/-- Body of the `forEach` loop of `normalizeNodeData` (NodeModal lines
16-20): a row whose type is neither `"array"` nor `"object"` and whose
key is truthy is written into the object through a JavaScript property
write; every other row is skipped. -/
def normalizeStep (acc : List (String × JValue)) (row : Row) : List (String × JValue) :=
  if row.type ≠ "array" && row.type ≠ "object" then
    match row.key with
    | some k => if k ≠ "" then jsObjSet acc k (primToJValue row.value) else acc
    | none => acc
  else acc

/-- The row-accumulation loop of `normalizeNodeData`. -/
def rowsToEntries (rows : List Row) : List (String × JValue) :=
  rows.foldl normalizeStep []

/-- Embedding of `normalizeNodeData` (NodeModal lines 11-22): `"\x7b\x7d"`
for a missing or empty row list, the bare template-literal string of the
value for a single keyless row, otherwise the pretty serialization of the
object collecting the keyed non-container rows. -/
def normalizeNodeData : Option (List Row) → String
  | none => "\x7b\x7d"
  | some [] => "\x7b\x7d"
  | some (row :: rest) =>
    if rest.isEmpty && !truthyKey row.key then jsString row.value
    else jsonStringify2 (.obj (rowsToEntries (row :: rest)))

/-- Result of one `handleSave` run: either a caught failure (the message
set via `setError` / toast; nothing is written to any store) or a success
carrying the new serialized contents and the updated node snapshot. -/
inductive SaveOutcome where
  | failure (message : String)
  | success (newContents : String) (updatedNode : NodeData)
deriving DecidableEq, Repr

/-- Whether the outcome is a failure. -/
def isFailureOutcome : SaveOutcome → Bool
  | .failure _ => true
  | .success _ _ => false

/-- The display conversion of the saved value (EditNodeModal line 154):
booleans become the strings `"true"` / `"false"`, other primitives stay
as they are.  `parseValue` only returns primitives, so the container
cases are unreachable. -/
def displayOf : JValue → JPrim
  | .bool b => .str (if b then "true" else "false")
  | .null => .null
  | .num n => .num n
  | .inf neg => .inf neg
  | .str s => .str s
  | .arr _ => .null
  | .obj _ => .null

/-- Embedding of `handleSave` (EditNodeModal lines 106-188) as a pure
function from its inputs — the document text, the selected node and the
edit form state — to its outcome.  It follows the source order: path
guard, key validation, `JSON.parse`, first-row read, target-path
construction (append the first row's key when truthy), the `newKey`
argument (the edited key when truthy and different from the row key),
the path mutation, and on success the serialized document plus the
updated snapshot (first row rewritten with the new key, display value
and type).  Any throw is caught and becomes a `failure` with the thrown
message. -/
def handleSave (json : String) (selectedNode : Option NodeData) (editState : EditState) :
    SaveOutcome :=
  match selectedNode with
  | none => .failure "Unable to determine node path"
  | some node =>
    match node.path with
    | none => .failure "Unable to determine node path"
    | some npath =>
      match validateKey editState.key with
      | some msg => .failure msg
      | none =>
        match jsonParse json with
        | .error e => .failure e
        | .ok parsedJson =>
          let newValue := parseValue editState.value editState.type
          match node.text with
          | none => .failure "TypeError: cannot read properties of undefined"
          | some [] => .failure "TypeError: cannot read properties of undefined"
          | some (textRow :: restRows) =>
            let targetPath := npath ++
              (match textRow.key with
                | some k => if k ≠ "" then [Seg.str k] else []
                | none => [])
            let newKey : Option String :=
              match editState.key with
              | some k => if k ≠ "" && some k ≠ textRow.key then some k else none
              | none => none
            match updateJsonAtPath parsedJson targetPath newValue newKey with
            | .error e => .failure e
            | .ok updated =>
              let newRow : Row :=
                { key :=
                    match editState.key with
                    | some k => if k ≠ "" then some k else textRow.key
                    | none => textRow.key,
                  value := displayOf newValue,
                  type := editState.type }
              .success (jsonStringify2 updated)
                { node with text := some (newRow :: restRows) }

/-- The two stores `handleSave` writes on success: the file contents
(with its dirty flag) and the graph's selected node. -/
structure Stores where
  contents : String
  hasChanges : Bool
  selectedNode : Option NodeData
deriving DecidableEq, Repr

/-- Effect of a save outcome on the stores: a failure writes nothing
(the catch branch only surfaces the message); a success writes the new
contents with `hasChanges := true` and replaces the selected node
(EditNodeModal lines 150 and 172). -/
def applySaveOutcome : SaveOutcome → Stores → Stores
  | .failure _, s => s
  | .success c n, _ =>
    { contents := c, hasChanges := true, selectedNode := some n }

/-! ## Lemmas about the array and object primitives -/

theorem arrGet_lt : ∀ (xs : List JValue) (n : Nat) (s : JValue),
    arrGet xs n = some s → n < xs.length
  | [], _, _, h => by simp [arrGet] at h
  | _ :: _, 0, _, _ => Nat.succ_pos _
  | _ :: xs, n + 1, s, h => Nat.succ_lt_succ (arrGet_lt xs n s h)

theorem arrGet_arrSet_self : ∀ (xs : List JValue) (n : Nat) (v : JValue),
    n < xs.length → arrGet (arrSet xs n v) n = some v
  | [], _, _, h => absurd h (by simp)
  | _ :: _, 0, _, _ => rfl
  | _ :: xs, n + 1, v, h => arrGet_arrSet_self xs n v (Nat.lt_of_succ_lt_succ h)

theorem arrSet_arrSet : ∀ (xs : List JValue) (n : Nat) (a b : JValue),
    arrSet (arrSet xs n a) n b = arrSet xs n b
  | [], _, _, _ => rfl
  | _ :: _, 0, _, _ => rfl
  | x :: xs, n + 1, a, b => congrArg (x :: ·) (arrSet_arrSet xs n a b)

theorem arrErase_arrSet : ∀ (xs : List JValue) (n : Nat) (v : JValue),
    arrErase (arrSet xs n v) n = arrErase xs n
  | [], _, _ => rfl
  | _ :: _, 0, _ => rfl
  | x :: xs, n + 1, v => congrArg (x :: ·) (arrErase_arrSet xs n v)

theorem jsObjGet_jsObjSet_self : ∀ (kvs : List (String × JValue)) (k : String) (v : JValue),
    jsObjGet (jsObjSet kvs k v) k = some v
  | [], k, v => by simp [jsObjSet, jsObjGet]
  | (k₀, v₀) :: rest, k, v => by
    by_cases h : k₀ = k
    · simp [jsObjSet, h, jsObjGet]
    · simp [jsObjSet, h, jsObjGet, jsObjGet_jsObjSet_self rest k v]

theorem jsObjSet_jsObjSet : ∀ (kvs : List (String × JValue)) (k : String) (a b : JValue),
    jsObjSet (jsObjSet kvs k a) k b = jsObjSet kvs k b
  | [], k, a, b => by simp [jsObjSet]
  | (k₀, v₀) :: rest, k, a, b => by
    by_cases h : k₀ = k
    · simp [jsObjSet, h]
    · simp [jsObjSet, h, jsObjSet_jsObjSet rest k a b]

theorem removeFirst_jsObjSet : ∀ (kvs : List (String × JValue)) (k : String) (v : JValue),
    removeFirst (jsObjSet kvs k v) k = removeFirst kvs k
  | [], k, v => by simp [jsObjSet, removeFirst]
  | (k₀, v₀) :: rest, k, v => by
    by_cases h : k₀ = k
    · simp [jsObjSet, h, removeFirst]
    · simp [jsObjSet, h, removeFirst, removeFirst_jsObjSet rest k v]

/-! ## The frame property of the path mutation (claim C1) -/

theorem update_frame_aux : ∀ (p : List Seg) (v s x : JValue),
    getAtPath v p = some s → p ≠ [] →
    ∃ r, updateJsonAtPath v p x none = .ok r ∧
      withoutPath r p = withoutPath v p ∧ getAtPath r p = some x := by
  intro p
  induction p with
  | nil => exact fun v s x _ hne => absurd rfl hne
  | cons seg rest ih =>
    intro v s x hres _
    cases rest with
    | nil =>
      cases v with
      | null => simp [getAtPath] at hres
      | bool b => simp [getAtPath] at hres
      | num n => simp [getAtPath] at hres
      | inf neg => simp [getAtPath] at hres
      | str s2 => simp [getAtPath] at hres
      | arr xs =>
        cases hsn : segNum seg with
        | none => simp [getAtPath, hsn] at hres
        | some n =>
          cases hag : arrGet xs n with
          | none => simp [getAtPath, hsn, hag] at hres
          | some c =>
            have hlt := arrGet_lt xs n c hag
            refine ⟨.arr (jsArrSet xs n x), ?_, ?_, ?_⟩
            · simp [updateJsonAtPath, applyTerminal, hsn]
            · simp [withoutPath, hsn, jsArrSet, hlt, arrErase_arrSet]
            · simp [getAtPath, hsn, jsArrSet, hlt, arrGet_arrSet_self xs n x hlt]
      | obj kvs =>
        cases hog : jsObjGet kvs (segKey seg) with
        | none => simp [getAtPath, hog] at hres
        | some c =>
          refine ⟨.obj (jsObjSet kvs (segKey seg) x), ?_, ?_, ?_⟩
          · simp [updateJsonAtPath, applyTerminal]
          · simp [withoutPath, removeFirst_jsObjSet]
          · simp [getAtPath, jsObjGet_jsObjSet_self]
    | cons seg2 rest2 =>
      cases v with
      | null => simp [getAtPath] at hres
      | bool b => simp [getAtPath] at hres
      | num n => simp [getAtPath] at hres
      | inf neg => simp [getAtPath] at hres
      | str s2 => simp [getAtPath] at hres
      | arr xs =>
        cases hsn : segNum seg with
        | none => simp [getAtPath, hsn] at hres
        | some n =>
          cases hag : arrGet xs n with
          | none => simp [getAtPath, hsn, hag] at hres
          | some c =>
            have hres2 : getAtPath c (seg2 :: rest2) = some s := by
              simpa [getAtPath, hsn, hag] using hres
            obtain ⟨rc, hupd, hwo, hget⟩ := ih c s x hres2 (by simp)
            have hlt := arrGet_lt xs n c hag
            refine ⟨.arr (arrSet xs n rc), ?_, ?_, ?_⟩
            · simp [updateJsonAtPath, hsn, hag, hupd, Except.map]
            · simp [withoutPath, hsn, hag, arrGet_arrSet_self xs n rc hlt,
                arrSet_arrSet, hwo]
            · simp [getAtPath, hsn, arrGet_arrSet_self xs n rc hlt, hget]
      | obj kvs =>
        cases hog : jsObjGet kvs (segKey seg) with
        | none => simp [getAtPath, hog] at hres
        | some c =>
          have hres2 : getAtPath c (seg2 :: rest2) = some s := by
            simpa [getAtPath, hog] using hres
          obtain ⟨rc, hupd, hwo, hget⟩ := ih c s x hres2 (by simp)
          refine ⟨.obj (jsObjSet kvs (segKey seg) rc), ?_, ?_, ?_⟩
          · simp [updateJsonAtPath, hog, hupd, Except.map]
          · simp [withoutPath, hog, jsObjGet_jsObjSet_self, jsObjSet_jsObjSet, hwo]
          · simp [getAtPath, jsObjGet_jsObjSet_self, hget]

/-- C1: for every JSON value `v`, every path `p` into `v` addressing a
scalar, and every replacement scalar `x`, `updateJsonAtPath v p x` with
no new key succeeds and changes only the value at `p`: the document with
the addressed element removed (`withoutPath`) is unchanged — so every
sibling key/element keeps its presence and order and no ancestor changes
shape between array and object — and the element at `p` becomes `x`. -/
theorem updateJsonAtPath_frame (v s x : JValue) (p : List Seg)
    (hp : p ≠ []) (hres : getAtPath v p = some s) (_hs : isScalar s = true)
    (_hx : isScalar x = true) :
    Except.map (fun r => withoutPath r p) (updateJsonAtPath v p x none)
        = Except.ok (withoutPath v p) ∧
    Except.map (fun r => getAtPath r p) (updateJsonAtPath v p x none)
        = Except.ok (some x) := by
  obtain ⟨r, hupd, hwo, hget⟩ := update_frame_aux p v s x hres hp
  rw [hupd]
  exact ⟨by simp [Except.map, hwo], by simp [Except.map, hget]⟩

/-- Witness for C1 at the spec's scenario: root
`\x7b"a": 1, "b": [10, 20]\x7d`, path `["a"]`, new value `2`. -/
theorem updateJsonAtPath_frame_witness :
    Except.map (fun r => withoutPath r [Seg.str "a"])
        (updateJsonAtPath (JValue.obj [("a", jnum 1), ("b", JValue.arr [jnum 10, jnum 20])])
          [Seg.str "a"] (jnum 2) none)
      = Except.ok (withoutPath
          (JValue.obj [("a", jnum 1), ("b", JValue.arr [jnum 10, jnum 20])]) [Seg.str "a"]) ∧
    Except.map (fun r => getAtPath r [Seg.str "a"])
        (updateJsonAtPath (JValue.obj [("a", jnum 1), ("b", JValue.arr [jnum 10, jnum 20])])
          [Seg.str "a"] (jnum 2) none)
      = Except.ok (some (jnum 2)) :=
  updateJsonAtPath_frame _ (jnum 1) _ _ (by simp) rfl rfl rfl

/-! ## Localizing a mutation to the parent it walks to (claims C2, C3) -/

theorem update_append : ∀ (p : List Seg) (v parent r2 : JValue) (last : Seg) (nv : JValue)
    (nk : Option String),
    getAtPath v p = some parent → applyTerminal parent last nv nk = .ok r2 →
    updateJsonAtPath v (p ++ [last]) nv nk = .ok (setAtPath v p r2) := by
  intro p
  induction p with
  | nil =>
    intro v parent r2 last nv nk hres hterm
    have hv : v = parent := by simpa [getAtPath] using hres
    subst hv
    simpa [updateJsonAtPath, setAtPath] using hterm
  | cons seg rest ih =>
    intro v parent r2 last nv nk hres hterm
    cases v with
    | null => simp [getAtPath] at hres
    | bool b => simp [getAtPath] at hres
    | num n => simp [getAtPath] at hres
    | inf neg => simp [getAtPath] at hres
    | str s => simp [getAtPath] at hres
    | arr xs =>
      cases hsn : segNum seg with
      | none => simp [getAtPath, hsn] at hres
      | some n =>
        cases hag : arrGet xs n with
        | none => simp [getAtPath, hsn, hag] at hres
        | some c =>
          have hres2 : getAtPath c rest = some parent := by
            simpa [getAtPath, hsn, hag] using hres
          have hrec := ih c parent r2 last nv nk hres2 hterm
          cases rest with
          | nil =>
            have hc : c = parent := by simpa [getAtPath] using hres2
            subst hc
            simp [updateJsonAtPath, hsn, hag, setAtPath, hterm, Except.map]
          | cons seg2 rest2 =>
            rw [List.cons_append] at hrec
            simp only [updateJsonAtPath, setAtPath, hsn, hag, Except.map, List.cons_append,
              List.append_eq]
            rw [hrec]
    | obj kvs =>
      cases hog : jsObjGet kvs (segKey seg) with
      | none => simp [getAtPath, hog] at hres
      | some c =>
        have hres2 : getAtPath c rest = some parent := by
          simpa [getAtPath, hog] using hres
        have hrec := ih c parent r2 last nv nk hres2 hterm
        cases rest with
        | nil =>
          have hc : c = parent := by simpa [getAtPath] using hres2
          subst hc
          simp [updateJsonAtPath, hog, setAtPath, hterm, Except.map]
        | cons seg2 rest2 =>
          rw [List.cons_append] at hrec
          simp only [updateJsonAtPath, setAtPath, hog, Except.map, List.cons_append,
            List.append_eq]
          rw [hrec]

/-! ## Out-of-bounds sequence index (claim C2) -/

/-- C2 counterexample: at path `["b", 5]` against `\x7b"b":[10,20]\x7d`
the mutation raises nothing — it returns a changed document in which the
sequence has been auto-extended to six elements, the gap null-padded.
Both halves of the claim (raises a `PathResolutionError`; leaves the
document unchanged, never auto-extending) are false here: the result is
`ok`, and the parent sequence now has six elements instead of two. -/
theorem updateJsonAtPath_oob_counterexample :
    updateJsonAtPath (JValue.obj [("b", JValue.arr [jnum 10, jnum 20])])
        [Seg.str "b", Seg.idx 5] (jnum 99) none
      = .ok (JValue.obj [("b", JValue.arr
          [jnum 10, jnum 20, JValue.null, JValue.null, JValue.null, jnum 99])]) ∧
    (JValue.obj [("b", JValue.arr
          [jnum 10, jnum 20, JValue.null, JValue.null, JValue.null, jnum 99])])
      ≠ (JValue.obj [("b", JValue.arr [jnum 10, jnum 20])]) :=
  ⟨rfl, by simp⟩

theorem arrSet_self : ∀ (xs : List JValue) (n : Nat) (c : JValue),
    arrGet xs n = some c → arrSet xs n c = xs
  | [], _, _, h => by simp [arrGet] at h
  | x :: xs, 0, c, h => by
    have hc : x = c := by simpa [arrGet] using h
    simp [arrSet, hc]
  | x :: xs, n + 1, c, h => congrArg (x :: ·) (arrSet_self xs n c h)

theorem jsObjSet_self : ∀ (kvs : List (String × JValue)) (k : String) (c : JValue),
    jsObjGet kvs k = some c → jsObjSet kvs k c = kvs
  | [], _, _, h => by simp [jsObjGet] at h
  | (k₀, v₀) :: rest, k, c, h => by
    by_cases hk : k₀ = k
    · have hc : v₀ = c := by simpa [jsObjGet, hk] using h
      simp [jsObjSet, hk, hc]
    · simp [jsObjSet, hk, jsObjSet_self rest k c (by simpa [jsObjGet, hk] using h)]

theorem setAtPath_self : ∀ (p : List Seg) (v parent : JValue),
    getAtPath v p = some parent → setAtPath v p parent = v := by
  intro p
  induction p with
  | nil =>
    intro v parent hres
    have hv : v = parent := by simpa [getAtPath] using hres
    subst hv
    cases v <;> rfl
  | cons seg rest ih =>
    intro v parent hres
    cases v with
    | null => simp [getAtPath] at hres
    | bool b => simp [getAtPath] at hres
    | num n => simp [getAtPath] at hres
    | inf neg => simp [getAtPath] at hres
    | str s => simp [getAtPath] at hres
    | arr xs =>
      cases hsn : segNum seg with
      | none => simp [getAtPath, hsn] at hres
      | some n =>
        cases hag : arrGet xs n with
        | none => simp [getAtPath, hsn, hag] at hres
        | some c =>
          have hres2 : getAtPath c rest = some parent := by
            simpa [getAtPath, hsn, hag] using hres
          simp [setAtPath, hsn, hag, ih c parent hres2, arrSet_self xs n c hag]
    | obj kvs =>
      cases hog : jsObjGet kvs (segKey seg) with
      | none => simp [getAtPath, hog] at hres
      | some c =>
        have hres2 : getAtPath c rest = some parent := by
          simpa [getAtPath, hog] using hres
        simp [setAtPath, hog, ih c parent hres2, jsObjSet_self kvs (segKey seg) c hog]

/-- C2 (amended): an integer terminal index at or beyond the bounds of a
sequence parent never raises a `PathResolutionError`.  Below the
ECMAScript array-index limit `2 ^ 32 - 1` the element write auto-extends
the sequence to `n + 1` elements, padding the gap with nulls (JavaScript
holes, which serialize as `null`), and stores the new value at index
`n`, leaving everything outside the parent untouched (`setAtPath`); at
or beyond that limit the write names a non-index property invisible to
serialization, and the document is returned unchanged. -/
theorem updateJsonAtPath_oob (v : JValue) (p : List Seg) (xs : List JValue) (n : Nat)
    (nv : JValue) (hres : getAtPath v p = some (.arr xs)) (hn : xs.length ≤ n) :
    (n < 4294967295 →
      updateJsonAtPath v (p ++ [Seg.idx n]) nv none
        = .ok (setAtPath v p
            (.arr (xs ++ List.replicate (n - xs.length) JValue.null ++ [nv])))) ∧
    (4294967295 ≤ n → updateJsonAtPath v (p ++ [Seg.idx n]) nv none = .ok v) := by
  constructor
  · intro hidx
    have hterm : applyTerminal (.arr xs) (Seg.idx n) nv none
        = .ok (.arr (xs ++ List.replicate (n - xs.length) JValue.null ++ [nv])) := by
      simp [applyTerminal, segNum, jsArrSet, Nat.not_lt.mpr hn, hidx]
    exact update_append p v (.arr xs) _ (Seg.idx n) nv none hres hterm
  · intro hidx
    have hterm : applyTerminal (.arr xs) (Seg.idx n) nv none = .ok (.arr xs) := by
      simp [applyTerminal, segNum, jsArrSet, Nat.not_lt.mpr hn, Nat.not_lt.mpr hidx]
    have hu := update_append p v (.arr xs) _ (Seg.idx n) nv none hres hterm
    rwa [setAtPath_self p v (.arr xs) hres] at hu

/-- Witness for the amended C2 at the spec's scenario input (index 5,
below the array-index limit). -/
theorem updateJsonAtPath_oob_witness :
    updateJsonAtPath (JValue.obj [("b", JValue.arr [jnum 10, jnum 20])])
        ([Seg.str "b"] ++ [Seg.idx 5]) (jnum 99) none
      = .ok (setAtPath (JValue.obj [("b", JValue.arr [jnum 10, jnum 20])]) [Seg.str "b"]
          (.arr ([jnum 10, jnum 20] ++
            List.replicate (5 - [jnum 10, jnum 20].length) JValue.null ++ [jnum 99]))) :=
  (updateJsonAtPath_oob (JValue.obj [("b", JValue.arr [jnum 10, jnum 20])])
    [Seg.str "b"] [jnum 10, jnum 20] 5 (jnum 99) rfl (by decide)).1 (by decide)

/-! ## Renaming a mapping key (claim C3) -/

theorem jsObjSet_of_get_none : ∀ (kvs : List (String × JValue)) (k : String) (v : JValue),
    jsObjGet kvs k = none → jsObjSet kvs k v = kvs ++ [(k, v)]
  | [], _, _, _ => rfl
  | (k₀, v₀) :: rest, k, v, h => by
    by_cases hk : k₀ = k
    · simp [jsObjGet, hk] at h
    · simp [jsObjSet, hk,
        jsObjSet_of_get_none rest k v (by simpa [jsObjGet, hk] using h)]

theorem jsObjGet_removeFirst_other : ∀ (kvs : List (String × JValue)) (k j : String),
    j ≠ k → jsObjGet (removeFirst kvs k) j = jsObjGet kvs j
  | [], _, _, _ => rfl
  | (k₀, v₀) :: rest, k, j, hj => by
    by_cases hk : k₀ = k
    · subst hk
      simp [removeFirst, jsObjGet, Ne.symm hj]
    · simp [removeFirst, hk, jsObjGet, jsObjGet_removeFirst_other rest k j hj]

theorem jsObjGet_not_mem : ∀ (kvs : List (String × JValue)) (k : String),
    k ∉ kvs.map Prod.fst → jsObjGet kvs k = none
  | [], _, _ => rfl
  | (k₀, v₀) :: rest, k, h => by
    simp only [List.map_cons, List.mem_cons] at h
    push_neg at h
    simp [jsObjGet, Ne.symm h.1, jsObjGet_not_mem rest k h.2]

theorem jsObjGet_removeFirst_self : ∀ (kvs : List (String × JValue)) (k : String),
    (kvs.map Prod.fst).Nodup → jsObjGet (removeFirst kvs k) k = none
  | [], _, _ => rfl
  | (k₀, v₀) :: rest, k, hnd => by
    have hnd2 : k₀ ∉ rest.map Prod.fst ∧ (rest.map Prod.fst).Nodup := by
      rw [List.map_cons, List.nodup_cons] at hnd
      exact hnd
    by_cases hk : k₀ = k
    · subst hk
      simpa [removeFirst] using jsObjGet_not_mem rest k₀ hnd2.1
    · simp [removeFirst, hk, jsObjGet, jsObjGet_removeFirst_self rest k hnd2.2]

theorem jsObjGet_append_single : ∀ (l : List (String × JValue)) (k j : String) (v : JValue),
    jsObjGet (l ++ [(k, v)]) j
      = match jsObjGet l j with
        | some w => some w
        | none => if k = j then some v else none
  | [], k, j, v => by simp [jsObjGet]
  | (k₀, v₀) :: rest, k, j, v => by
    by_cases hk : k₀ = j
    · simp [jsObjGet, hk]
    · simp [jsObjGet, hk, jsObjGet_append_single rest k j v]

theorem map_fst_removeFirst : ∀ (kvs : List (String × JValue)) (k : String),
    (removeFirst kvs k).map Prod.fst = (kvs.map Prod.fst).erase k
  | [], _ => rfl
  | (k₀, v₀) :: rest, k => by
    by_cases hk : k₀ = k
    · simp [removeFirst, hk, List.erase_cons_head]
    · simp [removeFirst, hk, List.erase_cons_tail, map_fst_removeFirst rest k]

/-- C3 counterexample: renaming `"a"` to the already-present sibling key
`"b"` in `\x7b"a": 1, "b": 2, "c": 3\x7d`.  The claim predicts that every
member other than the targeted one is preserved and that the renamed
entry lands at the end of the key order (`["c", "b"]`); the code instead
overwrites the sibling `"b"` (its value 2 is lost) in its original
position, yielding `\x7b"b": 9, "c": 3\x7d`. -/
theorem updateJsonAtPath_rename_counterexample :
    updateJsonAtPath (JValue.obj [("a", jnum 1), ("b", jnum 2), ("c", jnum 3)])
        [Seg.str "a"] (jnum 9) (some "b")
      = .ok (JValue.obj [("b", jnum 9), ("c", jnum 3)]) ∧
    jsObjGet [("b", jnum 9), ("c", jnum 3)] "b" ≠ some (jnum 2) ∧
    [("b", jnum 9), ("c", jnum 3)].map Prod.fst ≠ ["c", "b"] :=
  ⟨rfl, fun h => absurd (JValue.num.inj (Option.some.inj h)) (by decide), by decide⟩

/-- C3 (amended): renaming the terminal key `k` of a mapping parent to a
key `k2` that is non-empty, different from `k` and **not already present
in the parent** removes the member under `k`, appends a member under
`k2` holding the new value at the end of the key order, preserves every
other member, and yields the key set `(keys - \x7bk\x7d) ∪ \x7bk2\x7d`;
everything outside the parent is untouched (`setAtPath`).  When `k2`
collides with an existing sibling the code instead overwrites that
sibling in place (see the counterexample). -/
theorem updateJsonAtPath_rename (v : JValue) (p : List Seg)
    (kvs : List (String × JValue)) (k k2 : String) (oldv nv : JValue)
    (hres : getAtPath v p = some (.obj kvs))
    (_hold : jsObjGet kvs k = some oldv)
    (hne : k2 ≠ k) (hne2 : k2 ≠ "")
    (hfresh : jsObjGet kvs k2 = none)
    (hnodup : (kvs.map Prod.fst).Nodup) :
    updateJsonAtPath v (p ++ [Seg.str k]) nv (some k2)
      = .ok (setAtPath v p (.obj (removeFirst kvs k ++ [(k2, nv)]))) ∧
    jsObjGet (removeFirst kvs k ++ [(k2, nv)]) k = none ∧
    jsObjGet (removeFirst kvs k ++ [(k2, nv)]) k2 = some nv ∧
    (∀ j, j ≠ k → j ≠ k2 → jsObjGet (removeFirst kvs k ++ [(k2, nv)]) j = jsObjGet kvs j) ∧
    (removeFirst kvs k ++ [(k2, nv)]).map Prod.fst = (kvs.map Prod.fst).erase k ++ [k2] := by
  have hfresh2 : jsObjGet (removeFirst kvs k) k2 = none := by
    rw [jsObjGet_removeFirst_other kvs k k2 hne]
    exact hfresh
  refine ⟨?_, ?_, ?_, ?_, ?_⟩
  · have hterm : applyTerminal (.obj kvs) (Seg.str k) nv (some k2)
        = .ok (.obj (removeFirst kvs k ++ [(k2, nv)])) := by
      simp [applyTerminal, segKey, hne, hne2, jsObjSet_of_get_none _ _ _ hfresh2]
    exact update_append p v (.obj kvs) _ (Seg.str k) nv (some k2) hres hterm
  · rw [jsObjGet_append_single]
    simp [jsObjGet_removeFirst_self kvs k hnodup, hne]
  · rw [jsObjGet_append_single]
    simp [hfresh2]
  · intro j hjk hjk2
    rw [jsObjGet_append_single, jsObjGet_removeFirst_other kvs k j hjk]
    cases hg : jsObjGet kvs j with
    | some w => simp
    | none => simp [Ne.symm hjk2]
  · simp [map_fst_removeFirst]

/-- Witness for the amended C3 at the spec's scenario: root
`\x7b"a": 1\x7d`, path `["a"]`, new value `5`, new key `"z"`. -/
theorem updateJsonAtPath_rename_witness :
    updateJsonAtPath (JValue.obj [("a", jnum 1)]) ([] ++ [Seg.str "a"]) (jnum 5) (some "z")
      = .ok (setAtPath (JValue.obj [("a", jnum 1)]) []
          (.obj (removeFirst [("a", jnum 1)] "a" ++ [("z", jnum 5)]))) ∧
    jsObjGet (removeFirst [("a", jnum 1)] "a" ++ [("z", jnum 5)]) "a" = none ∧
    jsObjGet (removeFirst [("a", jnum 1)] "a" ++ [("z", jnum 5)]) "z" = some (jnum 5) ∧
    (∀ j, j ≠ "a" → j ≠ "z" →
      jsObjGet (removeFirst [("a", jnum 1)] "a" ++ [("z", jnum 5)]) j
        = jsObjGet [("a", jnum 1)] j) ∧
    (removeFirst [("a", jnum 1)] "a" ++ [("z", jnum 5)]).map Prod.fst
      = ([("a", jnum 1)].map Prod.fst).erase "a" ++ ["z"] :=
  updateJsonAtPath_rename (JValue.obj [("a", jnum 1)]) [] [("a", jnum 1)] "a" "z"
    (jnum 1) (jnum 5) rfl rfl (by decide) (by decide) rfl (by decide)

/-! ## Key validation (claim C4) -/

/-- C4 counterexample: the empty-string key.  The claim requires every
proposed key that is empty after trimming to block the save with "Key
cannot be empty"; the code's guard `if (editState.key && ...)` treats the
empty string as falsy and skips validation entirely, so the save
proceeds and rewrites the document (here from `"a": 1` to `"a": 5`;
no rename happens because the `newKey` argument is likewise falsy). -/
theorem handleSave_empty_key_counterexample :
    validateKey (some "") = none ∧
    handleSave "\x7b\"a\": 1\x7d"
        (some { path := some [],
                text := some [{ key := some "a", value := .num (JNum.make 1 0),
                                type := "number" }] })
        { key := some "", value := .num (JNum.make 5 0), type := "number" }
      = .success "\x7b\n  \"a\": 5\n\x7d"
          { path := some [],
            text := some [{ key := some "a", value := .num (JNum.make 5 0),
                            type := "number" }] } :=
  ⟨rfl, rfl⟩

/-- C4 (amended): for every **non-empty** proposed key string the save
is blocked without mutating the document unless the key is non-empty
after trimming and matches the identifier pattern; a whitespace-only key
surfaces "Key cannot be empty", a non-identifier key surfaces "Key must
be a valid identifier", and a blocked save writes nothing to the stores.
The empty-string key is falsy in JavaScript and skips validation (see
the counterexample). -/
theorem handleSave_key_validation (k json : String) (d : NodeData) (st : EditState)
    (p : List Seg) (hk : k ≠ "") (hst : st.key = some k) (hpath : d.path = some p) :
    (jsTrim k = "" → handleSave json (some d) st = .failure "Key cannot be empty") ∧
    (jsTrim k ≠ "" → isValidIdent k = false →
      handleSave json (some d) st = .failure "Key must be a valid identifier") ∧
    (jsTrim k ≠ "" → isValidIdent k = true → validateKey st.key = none) ∧
    (∀ msg stores, handleSave json (some d) st = .failure msg →
      applySaveOutcome (handleSave json (some d) st) stores = stores) := by
  refine ⟨?_, ?_, ?_, ?_⟩
  · intro htrim
    simp [handleSave, hpath, hst, validateKey, hk, htrim]
  · intro htrim hident
    simp [handleSave, hpath, hst, validateKey, hk, htrim, hident]
  · intro htrim hident
    simp [hst, validateKey, hk, htrim, hident]
  · intro msg stores hfail
    rw [hfail]
    rfl

/-- Witness for the amended C4: the whitespace-only key `" "` blocks the
save with "Key cannot be empty" on a well-formed document. -/
theorem handleSave_key_validation_witness :
    handleSave "\x7b\"a\": 1\x7d"
        (some { path := some [],
                text := some [{ key := some "a", value := .num (JNum.make 1 0),
                                type := "number" }] })
        { key := some " ", value := .num (JNum.make 5 0), type := "number" }
      = .failure "Key cannot be empty" :=
  (handleSave_key_validation " " "\x7b\"a\": 1\x7d"
      { path := some [],
        text := some [{ key := some "a", value := .num (JNum.make 1 0), type := "number" }] }
      { key := some " ", value := .num (JNum.make 5 0), type := "number" }
      [] (by decide) rfl rfl).1 rfl

/-! ## Editability of a node (claim C5) -/

/-- C5: editing is disallowed exactly when the snapshot is absent, has
no rows, or its first row's type is `"object"` or `"array"`; for any
other first-row type the node is editable. -/
theorem isEditableNode_spec (nd : Option NodeData) :
    isEditableNode nd = false ↔
      nd = none ∨
      (∃ d, nd = some d ∧ (d.text = none ∨ d.text = some [])) ∨
      (∃ d r rs, nd = some d ∧ d.text = some (r :: rs) ∧
        (r.type = "object" ∨ r.type = "array")) := by
  cases nd with
  | none => simp [isEditableNode]
  | some d =>
    obtain ⟨dpath, dtext⟩ := d
    cases dtext with
    | none => simp [isEditableNode]
    | some rows =>
      cases rows with
      | nil => simp [isEditableNode]
      | cons r rs =>
        by_cases h1 : r.type = "object"
        · simp [isEditableNode, h1]
        · by_cases h2 : r.type = "array"
          · simp [isEditableNode, h1, h2]
          · simp [isEditableNode, h1, h2]

/-! ## Scalar coercion (claims C6, C7) -/

/-- The value the claim's "numeric parse" stores in the document: a
finite parse stores its decimal, an infinite parse stores the infinity,
and a NaN parse (`none`) falls back to `0`. -/
def coerceNumber : Option NumVal → JValue
  | some (.finite n) => JValue.num n
  | some (.inf neg) => JValue.inf neg
  | none => JValue.num (JNum.make 0 0)

/-- C6: coercion with target type `number` returns the numeric parse of
the input (`Number(value)`, including the infinities) and `0` (rather
than failing) whenever the input does not parse as a number (NaN);
target `null` returns null regardless of the input; target `boolean`
returns true iff the input equals boolean `true` or the string
`"true"`. -/
theorem parseValue_spec (v : JPrim) :
    parseValue v "number" = coerceNumber (jsToNumber v) ∧
    parseValue v "null" = JValue.null ∧
    (parseValue v "boolean" = JValue.bool true ↔ (v = .str "true" ∨ v = .bool true)) := by
  refine ⟨?_, rfl, ?_⟩
  · cases hn : jsToNumber v with
    | none => simp [parseValue, hn, coerceNumber]
    | some w => cases w <;> simp [parseValue, hn, coerceNumber]
  · have hb : parseValue v "boolean"
        = JValue.bool (v == JPrim.str "true" || v == JPrim.bool true) := by
      simp [parseValue]
    rw [hb]
    constructor
    · intro h
      simpa [Bool.or_eq_true, beq_iff_eq] using JValue.bool.inj h
    · intro h
      have hor : (v == JPrim.str "true" || v == JPrim.bool true) = true := by
        simpa [Bool.or_eq_true, beq_iff_eq] using h
      rw [hor]

/-- C7: `coerce(stringify(x), typeOf(x)) = x` for booleans, null and
strings, and `stringify` maps null to `""` and booleans to
`"true"`/`"false"`. -/
theorem coerce_stringify_roundtrip :
    (∀ b : Bool, parseValue (.str (valueToString (.bool b))) "boolean" = JValue.bool b) ∧
    parseValue (.str (valueToString .null)) "null" = JValue.null ∧
    (∀ s : String, parseValue (.str (valueToString (.str s))) "string" = JValue.str s) ∧
    valueToString .null = "" ∧
    valueToString (.bool true) = "true" ∧
    valueToString (.bool false) = "false" := by
  refine ⟨?_, rfl, ?_, rfl, rfl, rfl⟩
  · intro b
    cases b <;> rfl
  · intro s
    simp [parseValue, valueToString, jsString]

/-! ## Serialization failure is recovered locally (claim C8) -/

/-- C8: when the document's serialized text fails to parse as JSON, the
save attempt fails before any mutation: the outcome is a caught failure
(surfaced as a message), applying it leaves every store untouched, and —
whenever the preceding guards (node path present, key validation) pass —
the surfaced message is exactly the parse error's.  Successful outcomes
are produced only from a complete mutation of the freshly parsed working
copy, so no partial mutation is ever published. -/
theorem handleSave_serialization_error (json m : String) (nd : Option NodeData)
    (st : EditState) (hp : jsonParse json = .error m) :
    isFailureOutcome (handleSave json nd st) = true ∧
    (∀ stores, applySaveOutcome (handleSave json nd st) stores = stores) ∧
    (∀ d p, nd = some d → d.path = some p → validateKey st.key = none →
      handleSave json nd st = .failure m) := by
  have hmain : ∃ msg, handleSave json nd st = .failure msg := by
    cases nd with
    | none => exact ⟨_, rfl⟩
    | some d =>
      obtain ⟨dpath, dtext⟩ := d
      cases dpath with
      | none => exact ⟨_, rfl⟩
      | some p0 =>
        cases hvk : validateKey st.key with
        | some msg => exact ⟨msg, by simp [handleSave, hvk]⟩
        | none => exact ⟨m, by simp [handleSave, hvk, hp]⟩
  obtain ⟨msg, hmsg⟩ := hmain
  refine ⟨by rw [hmsg]; rfl, fun stores => by rw [hmsg]; rfl, ?_⟩
  intro d p hd hpath hvk
  subst hd
  simp [handleSave, hpath, hvk, hp]

/-- Witness for C8: the malformed document text `"\x7b"` fails the parse
and the save surfaces the parse error without writing anything. -/
theorem handleSave_serialization_error_witness :
    handleSave "\x7b"
        (some { path := some [],
                text := some [{ key := some "a", value := .num (JNum.make 1 0),
                                type := "number" }] })
        { key := none, value := .str "x", type := "string" }
      = .failure "Expected string key in JSON object" :=
  (handleSave_serialization_error "\x7b" "Expected string key in JSON object"
      (some { path := some [],
              text := some [{ key := some "a", value := .num (JNum.make 1 0),
                              type := "number" }] })
      { key := none, value := .str "x", type := "string" } rfl).2.2
    { path := some [],
      text := some [{ key := some "a", value := .num (JNum.make 1 0), type := "number" }] }
    [] rfl rfl rfl

/-! ## Rendering the JSON path (claim C9) -/

/-- Rendering of one path segment as the claim describes it: numeric
segments bare, string segments wrapped in double quotes. -/
def renderSegSpec : Seg → String
  | .idx n => toString n
  | .str s => "\"" ++ s ++ "\""

/-- C9: `jsonPathToString` returns `"$"` when the path is absent or
empty, and otherwise `$[s0][s1]...[sn]` — the rendered segments joined
with `][` inside `$[...]`, numeric segments bare and string segments
double-quoted. -/
theorem jsonPathToString_spec :
    jsonPathToString none = "$" ∧
    jsonPathToString (some []) = "$" ∧
    (∀ (l : List Seg), l ≠ [] →
      jsonPathToString (some l)
        = "$[" ++ String.intercalate "][" (l.map renderSegSpec) ++ "]") := by
  refine ⟨rfl, rfl, ?_⟩
  intro l hl
  have hfun : segDisplay = renderSegSpec := by
    funext seg
    cases seg <;> rfl
  have he : l.isEmpty = false := by
    cases l with
    | nil => exact absurd rfl hl
    | cons a as => rfl
  simp [jsonPathToString, he, hfun]

/-! ## The inspector's content view (claim C10) -/

/-- A row kept by the inspector's object view per the claim: keyed, and
typed neither `"array"` nor `"object"`. -/
def includedRow (r : Row) : Bool :=
  truthyKey r.key && r.type ≠ "array" && r.type ≠ "object"

/-- The entry a kept row contributes. -/
def rowEntry (r : Row) : String × JValue :=
  (r.key.getD "", primToJValue r.value)

theorem normalizeStep_included (acc : List (String × JValue)) (r : Row)
    (h : includedRow r = true) :
    normalizeStep acc r = jsObjSet acc (r.key.getD "") (primToJValue r.value) := by
  cases hk : r.key with
  | none => simp [includedRow, truthyKey, hk] at h
  | some k =>
    simp only [includedRow, truthyKey, hk, Bool.and_eq_true, decide_eq_true_eq] at h
    simp [normalizeStep, hk, h.1.1, h.1.2, h.2]

theorem normalizeStep_skipped (acc : List (String × JValue)) (r : Row)
    (h : includedRow r = false) : normalizeStep acc r = acc := by
  cases h1 : (r.type ≠ "array" && r.type ≠ "object") with
  | false =>
    unfold normalizeStep
    rw [h1]
    simp
  | true =>
    cases hk : r.key with
    | none => simp [normalizeStep, hk, h1]
    | some k =>
      have hke : k = "" := by
        by_contra hk2
        have h12 : (r.type ≠ "array") = true ∧ (r.type ≠ "object") = true := by
          simpa [Bool.and_eq_true] using h1
        simp [includedRow, truthyKey, hk, hk2, h12.1, h12.2] at h
      simp [normalizeStep, hk, hke, h1]

theorem rowsToEntries_go : ∀ (rows : List Row) (acc : List (String × JValue)),
    (∀ r, r ∈ rows → includedRow r = true → jsObjGet acc (r.key.getD "") = none) →
    ((rows.filter includedRow).map (fun r => r.key.getD "")).Nodup →
    rows.foldl normalizeStep acc = acc ++ (rows.filter includedRow).map rowEntry
  | [], acc, _, _ => by simp
  | r :: rs, acc, hacc, hnd => by
    cases hi : includedRow r with
    | false =>
      have hrec := rowsToEntries_go rs acc
        (fun r2 hr2 hi2 => hacc r2 (List.mem_cons_of_mem r hr2) hi2)
        (by simpa [List.filter_cons, hi] using hnd)
      simp [List.foldl_cons, normalizeStep_skipped acc r hi, hrec, List.filter_cons, hi]
    | true =>
      have hkacc : jsObjGet acc (r.key.getD "") = none :=
        hacc r (List.mem_cons_self r rs) hi
      have hnd2 : (r.key.getD "") ∉ ((rs.filter includedRow).map (fun r2 => r2.key.getD ""))
          ∧ ((rs.filter includedRow).map (fun r2 => r2.key.getD "")).Nodup := by
        rw [List.filter_cons_of_pos hi, List.map_cons, List.nodup_cons] at hnd
        exact hnd
      have hprec : ∀ r2, r2 ∈ rs → includedRow r2 = true →
          jsObjGet (acc ++ [rowEntry r]) (r2.key.getD "") = none := by
        intro r2 hr2 hi2
        have hne : r.key.getD "" ≠ r2.key.getD "" := by
          intro heq
          exact hnd2.1 (heq ▸ List.mem_map_of_mem _ (List.mem_filter.mpr ⟨hr2, hi2⟩))
        rw [rowEntry, jsObjGet_append_single,
          hacc r2 (List.mem_cons_of_mem r hr2) hi2]
        simp [hne]
      have hrec := rowsToEntries_go rs (acc ++ [rowEntry r]) hprec hnd2.2
      simp only [rowEntry] at hrec
      rw [List.foldl_cons, normalizeStep_included acc r hi,
        jsObjSet_of_get_none acc _ _ hkacc, hrec]
      simp [List.filter_cons_of_pos hi, rowEntry, List.append_assoc]

/-- C10: `normalizeNodeData` returns `"\x7b\x7d"` for an absent or empty
row list; the bare string form of the value for a single keyless row;
otherwise the JSON serialization of the object containing exactly the
keyed rows whose type is neither `"array"` nor `"object"`, in row order —
container-typed rows and keyless rows are omitted.  The hypothesis (kept
keys distinct) is the snapshot well-formedness invariant of the data
model: one row per field of a mapping whose keys are unique. -/
theorem normalizeNodeData_spec (rows : List Row)
    (hnd : ((rows.filter includedRow).map (fun r => r.key.getD "")).Nodup) :
    normalizeNodeData none = "\x7b\x7d" ∧
    normalizeNodeData (some []) = "\x7b\x7d" ∧
    (∀ r : Row, truthyKey r.key = false → normalizeNodeData (some [r]) = jsString r.value) ∧
    (∀ r rest, rows = r :: rest → (rest ≠ [] ∨ truthyKey r.key = true) →
      normalizeNodeData (some rows)
        = jsonStringify2 (.obj ((rows.filter includedRow).map rowEntry))) := by
  refine ⟨rfl, rfl, ?_, ?_⟩
  · intro r hr
    simp [normalizeNodeData, hr]
  · intro r rest hrows hcond
    subst hrows
    have hentries : rowsToEntries (r :: rest)
        = ((r :: rest).filter includedRow).map rowEntry := by
      simpa [rowsToEntries] using
        rowsToEntries_go (r :: rest) [] (fun _ _ _ => rfl) hnd
    rcases hcond with hne | htr
    · cases rest with
      | nil => exact absurd rfl hne
      | cons r2 rs2 =>
        simpa [normalizeNodeData] using congrArg (fun l => jsonStringify2 (.obj l)) hentries
    · have hcondf : (rest.isEmpty && !truthyKey r.key) = false := by
        simp [htr]
      simp only [normalizeNodeData, hcondf, Bool.false_eq_true, if_false]
      exact congrArg (fun l => jsonStringify2 (.obj l)) hentries

/-- Witness for C10 on a four-row snapshot: a numeric row and a string
row are kept, a container-typed row and a keyless row are dropped. -/
theorem normalizeNodeData_spec_witness :
    normalizeNodeData (some
        [{ key := some "a", value := .num (JNum.make 1 0), type := "number" },
         { key := some "b", value := .str "x", type := "string" },
         { key := some "c", value := .null, type := "object" },
         { key := none, value := .bool true, type := "boolean" }])
      = jsonStringify2 (.obj
          (([{ key := some "a", value := JPrim.num (JNum.make 1 0), type := "number" },
             { key := some "b", value := JPrim.str "x", type := "string" },
             { key := some "c", value := JPrim.null, type := "object" },
             { key := none, value := JPrim.bool true, type := "boolean" }].filter
               includedRow).map rowEntry)) :=
  (normalizeNodeData_spec _ (by decide)).2.2.2
    { key := some "a", value := .num (JNum.make 1 0), type := "number" }
    [{ key := some "b", value := .str "x", type := "string" },
     { key := some "c", value := .null, type := "object" },
     { key := none, value := .bool true, type := "boolean" }]
    rfl (Or.inr (by decide))

/-!
## Concrete checks

Evaluations of the embedded functions on the spec's scenarios and on the
edge cases discussed above, as executable confirmation that the
embedding behaves like the source.
-/

example : jsonParse "\x7b\"a\": 1, \"b\": [10, 20]\x7d"
    = .ok (.obj [("a", jnum 1), ("b", .arr [jnum 10, jnum 20])]) := rfl
example : jsonParse "\x7b" = .error "Expected string key in JSON object" := rfl
example : jsonParse "" = .error "Unexpected end of JSON input" := rfl
example : jsonParse "[1.5, -2e3, \"x\\n\"]"
    = .ok (.arr [.num ⟨15, -1⟩, .num ⟨-2, 3⟩, .str "x\n"]) := rfl
example : jsonParse "\x7b\"a\":1,\x7d" = .error "Unexpected token in JSON object" := rfl
example : jsonStringify2 (.obj [("a", jnum 5)]) = "\x7b\n  \"a\": 5\n\x7d" := rfl
example : jsonStringify2 (.obj []) = "\x7b\x7d" := rfl
example : jsonStringify2 (.obj [("b", .arr [jnum 10, .null])])
    = "\x7b\n  \"b\": [\n    10,\n    null\n  ]\n\x7d" := rfl

example : updateJsonAtPath (.obj [("a", jnum 1), ("b", .arr [jnum 10, jnum 20])])
    [.str "a"] (jnum 2) none
    = .ok (.obj [("a", jnum 2), ("b", .arr [jnum 10, jnum 20])]) := rfl
example : updateJsonAtPath (.obj [("a", jnum 1)]) [.str "a"] (jnum 5) (some "z")
    = .ok (.obj [("z", jnum 5)]) := rfl
example : updateJsonAtPath (.obj [("b", .arr [jnum 10, jnum 20])]) [.str "b", .idx 1]
    (jnum 99) none
    = .ok (.obj [("b", .arr [jnum 10, jnum 99])]) := rfl
example : updateJsonAtPath (.obj [("b", .arr [jnum 10, jnum 20])]) [.str "b", .idx 5]
    (jnum 99) none
    = .ok (.obj [("b", .arr [jnum 10, jnum 20, .null, .null, .null, jnum 99])]) := rfl
example : getAtPath (.obj [("b", .arr [jnum 10, jnum 20])]) [.str "b", .idx 1]
    = some (jnum 20) := rfl
example : withoutPath (.obj [("a", jnum 1), ("b", jnum 2)]) [.str "a"]
    = .obj [("b", jnum 2)] := rfl

example : jsStringToNumber "5" = some (.finite (JNum.make 5 0)) := by decide
example : jsStringToNumber "" = some (.finite (JNum.make 0 0)) := rfl
example : jsStringToNumber " 12.5 " = some (.finite ⟨125, -1⟩) := by decide
example : jsStringToNumber "1e3" = some (.finite ⟨1, 3⟩) := by decide
example : jsStringToNumber "0x10" = some (.finite ⟨16, 0⟩) := by decide
example : jsStringToNumber "abc" = none := rfl
example : jsStringToNumber "Infinity" = some (.inf false) := rfl
example : jsStringToNumber "-Infinity" = some (.inf true) := rfl
example : jsStringToNumber "\u00a05" = some (.finite (JNum.make 5 0)) := by decide
example : jsTrim "\u00a0" = "" := rfl
example : parseValue (JPrim.str "Infinity") "number" = JValue.inf false := rfl
example : jsArrSet [jnum 10] 4294967295 (jnum 99) = [jnum 10] := rfl
example : numToString ⟨125, -1⟩ = "12.5" := by decide
example : numToString ⟨-5, 0⟩ = "-5" := by decide
example : numToString ⟨11, -1⟩ = "1.1" := by decide
example : segNum (Seg.str "5") = some 5 := by decide
example : segNum (Seg.str "a") = none := rfl
example : segNum (Seg.str "-1") = none := by decide
example : parseValue (JPrim.str "true") "boolean" = JValue.bool true := rfl
example : parseValue (JPrim.str "x") "number" = JValue.num ⟨0, 0⟩ := rfl
example : jsObjGet [("a", jnum 1)] "a" = some (jnum 1) := rfl
example : jsArrSet [jnum 10, jnum 20] 5 (jnum 99)
    = [jnum 10, jnum 20, JValue.null, JValue.null, JValue.null, jnum 99] := rfl
example : (jnum 10) ≠ (jnum 99) := fun h => absurd (JValue.num.inj h) (by decide)
